import Mathlib

/-!
Shallow embedding of the resilient inference gateway in src/app.py:
the response cache (APICache), the history/prompt budget manager
(TokenManager), the response normalizer (HuggingFaceClient._extract_response),
the retrying transport (HuggingFaceClient.query) and the facade
(ChatSession.add_message), together with proofs of the spec claims.
-/

namespace BotEnglish

/-! ## Configuration constants (src/app.py lines 24-29) -/

def MAX_HISTORY_TOKENS : Nat := 800

def MAX_INPUT_LENGTH : Nat := 512

def CACHE_EXPIRY : Int := 3600

def MAX_RETRIES : Nat := 3

def MAX_CONVERSATION_TURNS : Nat := 10

/-! ## Python string primitives used by the source

Python str.split() with no separator splits on runs of whitespace and
drops empty pieces; str.strip() removes leading and trailing whitespace.
We model the whitespace class by the ASCII whitespace characters Python
recognizes (space, tab, newline, carriage return, vertical tab, form feed).
-/

def isPyWs (c : Char) : Bool :=
  c = ' ' || c = '\t' || c = '\n' || c = '\r' || c = Char.ofNat 11 || c = Char.ofNat 12

/-- Python str.strip(): drop leading and trailing whitespace characters. -/
def pyStrip (s : String) : String :=
  String.mk (((s.toList.dropWhile isPyWs).reverse.dropWhile isPyWs).reverse)

/-- Accumulator worker for pyWords: acc holds the current word reversed. -/
def pyWordsAux : List Char → List Char → List (List Char)
  | [], acc => if acc = [] then [] else [acc.reverse]
  | c :: cs, acc =>
    if isPyWs c then
      if acc = [] then pyWordsAux cs []
      else acc.reverse :: pyWordsAux cs []
    else pyWordsAux cs (c :: acc)

/-- Python prompt.split() with no argument: whitespace-separated words. -/
def pyWords (s : String) : List (List Char) :=
  pyWordsAux s.toList []

/-- Python " ".join(words): words interleaved with single spaces. -/
def joinWords : List (List Char) → List Char
  | [] => []
  | w :: ws =>
    match ws with
    | [] => w
    | _ :: _ => w ++ ' ' :: joinWords ws

/-! ## TokenManager (src/app.py lines 83-134) -/

/-- Each 4 characters count as approximately one token (line 89). -/
def estimate_tokens (text : String) : Nat :=
  text.length / 4

/-- The while loop of truncate_history (lines 120-124): drop the oldest
pair from both lists while the running total exceeds the budget and both
lists are non-empty.  The total argument always equals the token sum of
the remaining texts at every call site, so Nat subtraction is exact. -/
def dropOldest : List String → List String → Nat → Nat → List String × List String
  | i :: is, r :: rs, total, max_tokens =>
    if max_tokens < total then
      dropOldest is rs (total - (estimate_tokens i + estimate_tokens r)) max_tokens
    else (i :: is, r :: rs)
  | is, rs, _, _ => (is, rs)

/-- TokenManager.truncate_history (lines 91-127): cap the turn count at
MAX_CONVERSATION_TURNS (this cap short-circuits), otherwise drop oldest
pairs until the approximate token total fits the budget. -/
def truncate_history (past_inputs past_responses : List String)
    (max_tokens : Nat := MAX_HISTORY_TOKENS) : List String × List String :=
  if MAX_CONVERSATION_TURNS < past_inputs.length then
    let start_idx := past_inputs.length - MAX_CONVERSATION_TURNS
    (past_inputs.drop start_idx, past_responses.drop start_idx)
  else
    let total_tokens := ((past_inputs ++ past_responses).map estimate_tokens).sum
    if total_tokens ≤ max_tokens then (past_inputs, past_responses)
    else dropOldest past_inputs past_responses total_tokens max_tokens

/-- TokenManager.truncate_text (lines 129-134): Python text[:max_length]. -/
def truncate_text (text : String) (max_length : Nat := MAX_INPUT_LENGTH) : String :=
  if text.length ≤ max_length then text
  else String.mk (text.toList.take max_length)

/-! ## APICache (src/app.py lines 136-182)

The backing sqlite table has query_hash as its primary key, so we model
storage as a list of rows with at most one row per hash; INSERT OR REPLACE
removes any previous row for the key.  compute_hash is an md5 digest; the
spec notes the exact algorithm is not load-bearing, so the model is
parametric in a deterministic hash function. -/

structure CacheRow where
  query_hash : String
  response : String
  timestamp : Int
deriving DecidableEq, Repr

/-- APICache.cache_response (lines 166-182): INSERT OR REPLACE by key. -/
def cache_response (hash : String → String) (store : List CacheRow)
    (query response : String) (now : Int) : List CacheRow :=
  let h := hash query
  ⟨h, response, now⟩ :: store.filter (fun row => row.query_hash ≠ h)

/-- APICache.get_cached_response (lines 143-164): point lookup by key,
returned only while now - timestamp < CACHE_EXPIRY. -/
def get_cached_response (hash : String → String) (store : List CacheRow)
    (query : String) (now : Int) : Option String :=
  let h := hash query
  match store.find? (fun row => row.query_hash = h) with
  | some row => if now - row.timestamp < CACHE_EXPIRY then some row.response else none
  | none => none

/-! ## Decoded JSON payloads and the response normalizer
(HuggingFaceClient._extract_response, src/app.py lines 315-344) -/

inductive JValue where
  | str (s : String)
  | num (n : Int)
  | bool (b : Bool)
  | null
  | arr (elems : List JValue)
  | obj (fields : List (String × JValue))

/-- A single-quote character, written via its code point. -/
def pyQuote : String := String.singleton (Char.ofNat 39)

/-- Python repr() of a decoded JSON value (string escaping elided: the
payloads the claims quantify over never require it). -/
def pyRepr : JValue → String
  | .str s => pyQuote ++ s ++ pyQuote
  | .num n => toString n
  | .bool b => if b then "True" else "False"
  | .null => "None"
  | .arr elems =>
    "[" ++ String.intercalate ", " (elems.attach.map (fun x => pyRepr x.1)) ++ "]"
  | .obj fields =>
    "\x7b" ++ String.intercalate ", "
      (fields.attach.map (fun kv => pyQuote ++ kv.1.1 ++ pyQuote ++ ": " ++ pyRepr kv.1.2)) ++ "\x7d"
decreasing_by
  all_goals simp_wf
  · have := List.sizeOf_lt_of_mem x.2
    omega
  · have h1 := List.sizeOf_lt_of_mem kv.2
    obtain ⟨⟨a, b⟩, hm⟩ := kv
    simp at h1 ⊢
    omega

/-- Python str() as used in an f-string: strings verbatim, containers and
scalars via repr-like rendering. -/
def pyStr : JValue → String
  | .str s => s
  | v => pyRepr v

/-- Python dict membership / indexing: first field with the given key. -/
def lookupField (fields : List (String × JValue)) (key : String) : Option JValue :=
  (fields.find? (fun kv => kv.1 = key)).map (fun kv => kv.2)

/-- The fallback scan (lines 332-340): first field whose value is a string
longer than 5 characters, stripped. -/
def scanFields : List (String × JValue) → Option String
  | [] => none
  | (_, .str s) :: rest => if 5 < s.length then some (pyStrip s) else scanFields rest
  | _ :: rest => scanFields rest

def unexpectedFormatMsg : String := "⚠️ Formato de resposta inesperado da API."

/-- HuggingFaceClient._extract_response (lines 315-344).  A
generated_text field holding a non-string raises AttributeError on
.strip() in the source; the surrounding except swallows it and the
function returns the unexpected-format marker, modelled by the
`some non-string` branches. -/
def extract_response (data : JValue) : String :=
  match data with
  | .obj fields =>
    match lookupField fields "generated_text" with
    | some (.str s) => pyStrip s
    | some _ => unexpectedFormatMsg
    | none =>
      match lookupField fields "error" with
      | some e => "⚠️ Erro da API: " ++ pyStr e
      | none =>
        match scanFields fields with
        | some s => s
        | none => unexpectedFormatMsg
  | .arr (first :: _) =>
    match first with
    | .obj fields =>
      match lookupField fields "generated_text" with
      | some (.str s) => pyStrip s
      | some _ => unexpectedFormatMsg
      | none =>
        match scanFields fields with
        | some s => s
        | none => unexpectedFormatMsg
    | _ => unexpectedFormatMsg
  | _ => unexpectedFormatMsg

/-! ## HuggingFaceClient.query (src/app.py lines 195-313)

Each network attempt is classified by the outcome of requests.post plus
response decoding; the loop consumes outcomes from an environment mapping
attempt numbers to outcomes.  The returned trace records the prompt sent
on every network attempt, the sleeps performed, the cache lookups and
writes, and the final cache store. -/

inductive NetOutcome where
  /-- HTTP 200 whose body decodes to the given JSON value. -/
  | ok (body : JValue)
  /-- HTTP 200 whose body is not valid JSON (json.JSONDecodeError). -/
  | badJson
  /-- HTTP 400, handled before raise_for_status (lines 240-250). -/
  | badRequest
  /-- Any other non-2xx status raised by raise_for_status. -/
  | httpError (status : Nat)
  /-- requests.exceptions.Timeout. -/
  | timeout
  /-- Other requests.exceptions.RequestException. -/
  | connError
  /-- Any other exception, carrying str(e). -/
  | otherError (msg : String)

structure QueryResult where
  result : String
  attempts : List String
  sleeps : List Nat
  lookups : List String
  writes : List (String × String)
  store : List CacheRow
deriving DecidableEq, Repr

def exhaustedMsg : String := "⚠️ Não foi possível obter uma resposta após várias tentativas."

def badRequestMsg : String := "⚠️ Erro na requisição: formato inválido. Tente uma mensagem mais curta."

def serverErrorMsg : String := "⚠️ Erro no servidor da API. Tente novamente mais tarde."

def timeoutMsg : String := "⚠️ Tempo esgotado ao aguardar resposta da API."

def connErrorMsg : String := "⚠️ Erro de conexão com a API."

def badJsonMsg : String := "⚠️ Resposta inválida da API."

def inadequateMsg : String := "Desculpe, não consegui gerar uma resposta adequada. Poderia reformular?"

/-- The 400 salvage heuristic (lines 246-248): if the prompt has more than
100 words, keep only the last 100, joined by single spaces. -/
def salvage (prompt : String) : String :=
  let words := pyWords prompt
  if 100 < words.length then
    String.mk (joinWords (words.drop (words.length - 100)))
  else prompt

/-- The retry loop (lines 218-313).  fuel counts the remaining iterations
of `for attempt in range(1, MAX_RETRIES + 1)`; callers maintain
attempt + fuel = MAX_RETRIES + 1.  Running out of fuel is the loop
falling through to line 313. -/
def queryLoop (net : Nat → NetOutcome) (hash : String → String)
    (store : List CacheRow) (now : Int) :
    Nat → Nat → String → QueryResult
  | _, 0, _ => ⟨exhaustedMsg, [], [], [], [], store⟩
  | attempt, fuel + 1, prompt =>
    match net attempt with
    | .ok body =>
      let result := extract_response body
      if result.length < 2 then
        if attempt < MAX_RETRIES then
          let r := queryLoop net hash store now (attempt + 1) fuel prompt
          { r with attempts := prompt :: r.attempts, sleeps := 2 ^ attempt :: r.sleeps }
        else
          ⟨inadequateMsg, [prompt], [], [], [(prompt, inadequateMsg)],
            cache_response hash store prompt inadequateMsg now⟩
      else
        ⟨result, [prompt], [], [], [(prompt, result)],
          cache_response hash store prompt result now⟩
    | .badRequest =>
      if attempt < MAX_RETRIES then
        let r := queryLoop net hash store now (attempt + 1) fuel (salvage prompt)
        { r with attempts := prompt :: r.attempts }
      else ⟨badRequestMsg, [prompt], [], [], [], store⟩
    | .httpError status =>
      if status = 429 then
        let r := queryLoop net hash store now (attempt + 1) fuel prompt
        { r with attempts := prompt :: r.attempts, sleeps := 2 ^ attempt :: r.sleeps }
      else if 500 ≤ status then
        if attempt < MAX_RETRIES then
          let r := queryLoop net hash store now (attempt + 1) fuel prompt
          { r with attempts := prompt :: r.attempts, sleeps := 2 ^ attempt :: r.sleeps }
        else ⟨serverErrorMsg, [prompt], [], [], [], store⟩
      else ⟨"⚠️ Erro na requisição: " ++ toString status, [prompt], [], [], [], store⟩
    | .timeout =>
      if attempt < MAX_RETRIES then
        let r := queryLoop net hash store now (attempt + 1) fuel prompt
        { r with attempts := prompt :: r.attempts, sleeps := 2 ^ attempt :: r.sleeps }
      else ⟨timeoutMsg, [prompt], [], [], [], store⟩
    | .badJson =>
      if attempt < MAX_RETRIES then
        let r := queryLoop net hash store now (attempt + 1) fuel prompt
        { r with attempts := prompt :: r.attempts, sleeps := 2 ^ attempt :: r.sleeps }
      else ⟨badJsonMsg, [prompt], [], [], [], store⟩
    | .connError => ⟨connErrorMsg, [prompt], [], [], [], store⟩
    | .otherError msg => ⟨"⚠️ Ocorreu um erro: " ++ msg, [prompt], [], [], [], store⟩

/-- HuggingFaceClient.query (lines 195-313): truncate the prompt to
MAX_INPUT_LENGTH, consult the cache (a cached empty string is falsy in
`if cached_response:` and falls through to the network), then run the
retry loop. -/
def query (net : Nat → NetOutcome) (hash : String → String)
    (store : List CacheRow) (now : Int) (prompt0 : String) : QueryResult :=
  let prompt := truncate_text prompt0
  let cached := (get_cached_response hash store prompt now).getD ""
  if cached ≠ "" then ⟨cached, [], [], [prompt], [], store⟩
  else
    let r := queryLoop net hash store now 1 MAX_RETRIES prompt
    { r with lookups := prompt :: r.lookups }

/-! ## ChatSession.add_message (src/app.py lines 356-408) -/

def invalidInputMsg : String := "⚠️ Por favor, digite uma mensagem válida."

structure AddResult where
  reply : String
  user_inputs : List String
  bot_responses : List String
  attempts : List String
  sleeps : List Nat
  lookups : List String
  writes : List (String × String)
  store : List CacheRow
deriving DecidableEq, Repr

/-- ChatSession.add_message: validate, clamp the input, append it to the
history, truncate the history, keep at most the 3 most recent pairs, build
the context from the single most recent pair clamped to its last 200
characters, and delegate to query. -/
def add_message (net : Nat → NetOutcome) (hash : String → String)
    (store : List CacheRow) (now : Int)
    (user_inputs bot_responses : List String) (max_tokens : Nat)
    (user_input : String) : AddResult :=
  if user_input = "" ∨ (pyStrip user_input).length = 0 then
    ⟨invalidInputMsg, user_inputs, bot_responses, [], [], [], [], store⟩
  else
    let user_input :=
      if MAX_INPUT_LENGTH < user_input.length then
        String.mk (user_input.toList.take MAX_INPUT_LENGTH)
      else user_input
    let user_inputs := user_inputs ++ [user_input]
    let tr := truncate_history user_inputs.dropLast bot_responses max_tokens
    let truncated_inputs := tr.1
    let truncated_responses := tr.2
    let truncated_inputs' :=
      if 3 ≤ truncated_inputs.length then
        truncated_inputs.drop (truncated_inputs.length - 3)
      else truncated_inputs
    let truncated_responses' :=
      if 3 ≤ truncated_inputs.length then
        truncated_responses.drop (truncated_responses.length - 3)
      else truncated_responses
    let user_query :=
      if truncated_inputs' ≠ [] ∧ truncated_responses' ≠ [] then
        let context := truncated_inputs'.getLastD "" ++ " " ++ truncated_responses'.getLastD ""
        let context :=
          if 200 < context.length then
            String.mk (context.toList.drop (context.length - 200))
          else context
        context ++ " " ++ user_input
      else user_input
    let r := query net hash store now user_query
    ⟨r.result, user_inputs, bot_responses ++ [r.result],
      r.attempts, r.sleeps, r.lookups, r.writes, r.store⟩

/-! ## Claim predicates for the response normalizer -/

/-- A field whose value is a string longer than 5 characters (the shape
the fallback scan of _extract_response looks for). -/
def isLongStrField : String × JValue → Bool
  | (_, .str s) => 5 < s.length
  | _ => false

/-- No recognized shape matches and no top-level field (of the record, or
of the first element when the payload is a sequence) holds a string longer
than 5 characters. -/
def extractionNoMatch : JValue → Bool
  | .obj fields =>
    (lookupField fields "generated_text").isNone &&
    (lookupField fields "error").isNone &&
    fields.all (fun kv => !isLongStrField kv)
  | .arr [] => true
  | .arr (first :: _) =>
    (match first with
     | .obj fields =>
       (lookupField fields "generated_text").isNone &&
       fields.all (fun kv => !isLongStrField kv)
     | _ => true)
  | _ => true

/-- An internal extraction failure: the generated_text field holds a
non-string, so .strip() raises inside the try block. -/
def extractionInternalFailure : JValue → Bool
  | .obj fields =>
    (match lookupField fields "generated_text" with
     | some (.str _) => false
     | some _ => true
     | none => false)
  | .arr (first :: _) =>
    (match first with
     | .obj fields =>
       (match lookupField fields "generated_text" with
        | some (.str _) => false
        | some _ => true
        | none => false)
     | _ => false)
  | _ => false

/-! ## Cache lemmas and claims C4, C5 -/

/-- Claim C4: for every prompt text and response string, store followed by
lookup with the same prompt text returns that stored response, provided the
elapsed time since the store is less than the cache TTL (round-trip through
the fingerprint, for any deterministic fingerprint function). -/
theorem claim_C4 (hash : String → String) (store : List CacheRow)
    (q r : String) (now now2 : Int) (h : now2 - now < CACHE_EXPIRY) :
    get_cached_response hash (cache_response hash store q r now) q now2 = some r := by
  simp [get_cached_response, cache_response, List.find?_cons, h]

/-- Witness for C4 at a concrete store, prompt, response and clock. -/
theorem claim_C4_witness :
    (100 : Int) - 5 < CACHE_EXPIRY ∧
    get_cached_response id (cache_response id [] "q" "resp" 5) "q" 100 = some "resp" :=
  ⟨by decide, claim_C4 id [] "q" "resp" 5 100 (by decide)⟩

/-- Claim C5: a lookup performed once now - storedAt ≥ CACHE_TTL returns
absence, even though the row remains present in storage; validity is
decided only by the strict comparison at read time, with no eviction. -/
theorem claim_C5 (hash : String → String) (store : List CacheRow)
    (q r : String) (now now2 : Int) (h : CACHE_EXPIRY ≤ now2 - now) :
    get_cached_response hash (cache_response hash store q r now) q now2 = none ∧
    (⟨hash q, r, now⟩ : CacheRow) ∈ cache_response hash store q r now := by
  constructor
  · simp [get_cached_response, cache_response, List.find?_cons, not_lt.mpr h]
  · simp [cache_response]

/-- Witness for C5 at a concrete store, prompt, response and clock. -/
theorem claim_C5_witness :
    CACHE_EXPIRY ≤ (3700 : Int) - 5 ∧
    (get_cached_response id (cache_response id [] "q" "resp" 5) "q" 3700 = none ∧
     (⟨"q", "resp", 5⟩ : CacheRow) ∈ cache_response id [] "q" "resp" 5) :=
  ⟨by decide, claim_C5 id [] "q" "resp" 5 3700 (by decide)⟩

/-! ## Normalizer lemmas and claim C7 -/

theorem scanFields_eq_none (fields : List (String × JValue))
    (h : ∀ kv ∈ fields, isLongStrField kv = false) : scanFields fields = none := by
  induction fields with
  | nil => rfl
  | cons kv rest ih =>
    have hkv := h kv (List.mem_cons_self kv rest)
    have hrest : ∀ kv ∈ rest, isLongStrField kv = false :=
      fun x hx => h x (List.mem_cons_of_mem kv hx)
    obtain ⟨k, v⟩ := kv
    cases v with
    | str s =>
      simp only [isLongStrField] at hkv
      simp [scanFields, ih hrest, of_decide_eq_false hkv]
    | num n => simp [scanFields, ih hrest]
    | bool b => simp [scanFields, ih hrest]
    | null => simp [scanFields, ih hrest]
    | arr elems => simp [scanFields, ih hrest]
    | obj fs => simp [scanFields, ih hrest]

/-- Claim C7: extractText is total (it is a Lean function into String, so
it never raises), and whenever no recognized shape matches — no
generated_text field, no error field, no top-level string field longer
than 5 characters — or an internal extraction failure occurs
(generated_text holding a non-string), it returns the fixed
unexpected-response-format marker. -/
theorem claim_C7 (data : JValue)
    (h : extractionNoMatch data = true ∨ extractionInternalFailure data = true) :
    extract_response data = unexpectedFormatMsg := by
  cases data with
  | str s => rfl
  | num n => rfl
  | bool b => rfl
  | null => rfl
  | obj fields =>
    rcases h with h | h
    · simp only [extractionNoMatch, Bool.and_eq_true, List.all_eq_true,
        Option.isNone_iff_eq_none, Bool.not_eq_true'] at h
      obtain ⟨⟨hgen, herr⟩, hlong⟩ := h
      simp [extract_response, hgen, herr, scanFields_eq_none fields hlong]
    · simp only [extractionInternalFailure] at h
      rcases hgen : lookupField fields "generated_text" with _ | v
      · simp [hgen] at h
      · cases v <;> simp [hgen] at h <;> simp [extract_response, hgen]
  | arr elems =>
    cases elems with
    | nil => rfl
    | cons first rest =>
      cases first with
      | str s => rfl
      | num n => rfl
      | bool b => rfl
      | null => rfl
      | arr es => rfl
      | obj fields =>
        rcases h with h | h
        · simp only [extractionNoMatch, Bool.and_eq_true, List.all_eq_true,
            Option.isNone_iff_eq_none, Bool.not_eq_true'] at h
          obtain ⟨hgen, hlong⟩ := h
          simp [extract_response, hgen, scanFields_eq_none fields hlong]
        · simp only [extractionInternalFailure] at h
          rcases hgen : lookupField fields "generated_text" with _ | v
          · simp [hgen] at h
          · cases v <;> simp [hgen] at h <;> simp [extract_response, hgen]

/-- Witness for C7: an unrecognized record and a record whose
generated_text holds a number both yield the marker. -/
theorem claim_C7_witness :
    extractionNoMatch (.obj [("x", .num 3), ("y", .str "short")]) = true ∧
    extract_response (.obj [("x", .num 3), ("y", .str "short")]) = unexpectedFormatMsg :=
  ⟨by decide, claim_C7 (.obj [("x", .num 3), ("y", .str "short")]) (Or.inl (by decide))⟩

/-! ## Facade validation: claim C8 -/

theorem pyStrip_of_all_ws (s : String) (h : ∀ c ∈ s.toList, isPyWs c = true) :
    pyStrip s = "" := by
  have hdrop : s.data.dropWhile isPyWs = [] := List.dropWhile_eq_nil_iff.mpr h
  show String.mk (((s.data.dropWhile isPyWs).reverse.dropWhile isPyWs).reverse) = ""
  rw [hdrop]
  rfl

/-- Claim C8: for every newUserText that is empty or whitespace-only, the
facade returns the validation message immediately, performing no cache
lookup, no cache store and no network attempt, and leaving the cache store
untouched. -/
theorem claim_C8 (net : Nat → NetOutcome) (hash : String → String)
    (store : List CacheRow) (now : Int) (ui br : List String) (m : Nat)
    (input : String) (h : input = "" ∨ ∀ c ∈ input.toList, isPyWs c = true) :
    (add_message net hash store now ui br m input).reply = invalidInputMsg ∧
    (add_message net hash store now ui br m input).lookups = [] ∧
    (add_message net hash store now ui br m input).writes = [] ∧
    (add_message net hash store now ui br m input).attempts = [] ∧
    (add_message net hash store now ui br m input).store = store := by
  have hcond : input = "" ∨ (pyStrip input).length = 0 := by
    rcases h with h | h
    · exact Or.inl h
    · exact Or.inr (by simp [pyStrip_of_all_ws input h])
  unfold add_message
  rw [if_pos hcond]
  exact ⟨rfl, rfl, rfl, rfl, rfl⟩

/-- Witness for C8 on a whitespace-only input. -/
theorem claim_C8_witness :
    (∀ c ∈ (" \t".toList), isPyWs c = true) ∧
    ((add_message (fun _ => .connError) id [] 0 [] [] 800 " \t").reply = invalidInputMsg ∧
     (add_message (fun _ => .connError) id [] 0 [] [] 800 " \t").lookups = [] ∧
     (add_message (fun _ => .connError) id [] 0 [] [] 800 " \t").writes = [] ∧
     (add_message (fun _ => .connError) id [] 0 [] [] 800 " \t").attempts = [] ∧
     (add_message (fun _ => .connError) id [] 0 [] [] 800 " \t").store = []) :=
  ⟨by decide, claim_C8 (fun _ => .connError) id [] 0 [] [] 800 " \t" (Or.inr (by decide))⟩

/-! ## truncate_history lemmas and claims C6, C2 -/

theorem dropOldest_nil_left (rs : List String) (t m : Nat) :
    dropOldest [] rs t m = ([], rs) := by
  cases rs <;> rfl

theorem dropOldest_nil_right (is : List String) (t m : Nat) :
    dropOldest is [] t m = (is, []) := by
  cases is <;> rfl

theorem dropOldest_suffix (is : List String) :
    ∀ (rs : List String) (t m : Nat),
      (dropOldest is rs t m).1 <:+ is ∧ (dropOldest is rs t m).2 <:+ rs := by
  induction is with
  | nil =>
    intro rs t m
    rw [dropOldest_nil_left]
    exact ⟨List.suffix_refl _, List.suffix_refl _⟩
  | cons i is ih =>
    intro rs t m
    cases rs with
    | nil =>
      rw [dropOldest_nil_right]
      exact ⟨List.suffix_refl _, List.suffix_refl _⟩
    | cons r rs =>
      by_cases hc : m < t
      · rw [dropOldest, if_pos hc]
        refine ⟨(ih rs _ m).1.trans ?_, (ih rs _ m).2.trans ?_⟩
        · exact ⟨[i], rfl⟩
        · exact ⟨[r], rfl⟩
      · rw [dropOldest, if_neg hc]
        exact ⟨List.suffix_refl _, List.suffix_refl _⟩

theorem dropOldest_length_eq (is : List String) :
    ∀ (rs : List String) (t m : Nat), is.length = rs.length →
      (dropOldest is rs t m).1.length = (dropOldest is rs t m).2.length := by
  induction is with
  | nil =>
    intro rs t m h
    rw [dropOldest_nil_left]
    simpa using h
  | cons i is ih =>
    intro rs t m h
    cases rs with
    | nil => simp at h
    | cons r rs =>
      by_cases hc : m < t
      · rw [dropOldest, if_pos hc]
        exact ih rs _ m (by simpa using h)
      · rw [dropOldest, if_neg hc]
        simpa using h

/-- Claim C6: truncate_history returns contiguous suffixes of its paired
inputs (only oldest pairs removed from the front, order preserved), and
the result never has more than MAX_CONVERSATION_TURNS pairs. -/
theorem claim_C6 (i r : List String) (m : Nat) (h : i.length = r.length) :
    (truncate_history i r m).1 <:+ i ∧ (truncate_history i r m).2 <:+ r ∧
    (truncate_history i r m).1.length ≤ MAX_CONVERSATION_TURNS ∧
    (truncate_history i r m).2.length ≤ MAX_CONVERSATION_TURNS ∧
    (truncate_history i r m).1.length = (truncate_history i r m).2.length := by
  unfold truncate_history
  split
  · next hgt =>
    refine ⟨List.drop_suffix _ _, List.drop_suffix _ _, ?_, ?_, ?_⟩ <;>
      simp only [List.length_drop] <;> omega
  · next hle =>
    dsimp only
    split
    · next htok =>
      refine ⟨List.suffix_refl _, List.suffix_refl _, ?_, ?_, ?_⟩
      · show i.length ≤ MAX_CONVERSATION_TURNS
        omega
      · show r.length ≤ MAX_CONVERSATION_TURNS
        omega
      · exact h
    · next htok =>
      obtain ⟨h1, h2⟩ := dropOldest_suffix i r (((i ++ r).map estimate_tokens).sum) m
      refine ⟨h1, h2, ?_, ?_, ?_⟩
      · exact le_trans h1.length_le (by omega)
      · exact le_trans h2.length_le (by omega)
      · exact dropOldest_length_eq i r _ m h

/-- Witness for C6 on a concrete 12-pair history. -/
theorem claim_C6_witness :
    (List.replicate 12 "aaaa").length = (List.replicate 12 "bb").length ∧
    ((truncate_history (List.replicate 12 "aaaa") (List.replicate 12 "bb") 800).1 <:+
        List.replicate 12 "aaaa" ∧
     (truncate_history (List.replicate 12 "aaaa") (List.replicate 12 "bb") 800).2 <:+
        List.replicate 12 "bb" ∧
     (truncate_history (List.replicate 12 "aaaa") (List.replicate 12 "bb") 800).1.length ≤
        MAX_CONVERSATION_TURNS ∧
     (truncate_history (List.replicate 12 "aaaa") (List.replicate 12 "bb") 800).2.length ≤
        MAX_CONVERSATION_TURNS ∧
     (truncate_history (List.replicate 12 "aaaa") (List.replicate 12 "bb") 800).1.length =
        (truncate_history (List.replicate 12 "aaaa") (List.replicate 12 "bb") 800).2.length) :=
  ⟨by decide, claim_C6 (List.replicate 12 "aaaa") (List.replicate 12 "bb") 800 (by decide)⟩

theorem dropOldest_spec (m : Nat) (is : List String) :
    ∀ (rs : List String) (t : Nat),
      t = ((is ++ rs).map estimate_tokens).sum →
      (((dropOldest is rs t m).1 ++ (dropOldest is rs t m).2).map estimate_tokens).sum ≤ m ∨
      (dropOldest is rs t m).1 = [] ∨ (dropOldest is rs t m).2 = [] := by
  induction is with
  | nil =>
    intro rs t ht
    rw [dropOldest_nil_left]
    exact Or.inr (Or.inl rfl)
  | cons i is ih =>
    intro rs t ht
    cases rs with
    | nil =>
      rw [dropOldest_nil_right]
      exact Or.inr (Or.inr rfl)
    | cons r rs =>
      by_cases hc : m < t
      · rw [dropOldest, if_pos hc]
        apply ih rs (t - (estimate_tokens i + estimate_tokens r))
        have expand : (((i :: is) ++ (r :: rs)).map estimate_tokens).sum =
            estimate_tokens i + estimate_tokens r + ((is ++ rs).map estimate_tokens).sum := by
          simp only [List.map_append, List.sum_append, List.map_cons, List.sum_cons]
          omega
        omega
      · rw [dropOldest, if_neg hc]
        exact Or.inl (by rw [ht] at hc; exact not_lt.mp hc)

/-- Counterexample to claim C2 as stated: an 11-pair history whose token
cost (22) exceeds the budget (0) hits the turn-count cap, which
short-circuits the budget cap, so a second application truncates further. -/
theorem claim_C2_counterexample :
    0 < (((List.replicate 11 "aaaa" ++ List.replicate 11 "bbbb").map
        estimate_tokens).sum) ∧
    truncate_history
        (truncate_history (List.replicate 11 "aaaa") (List.replicate 11 "bbbb") 0).1
        (truncate_history (List.replicate 11 "aaaa") (List.replicate 11 "bbbb") 0).2 0 ≠
      truncate_history (List.replicate 11 "aaaa") (List.replicate 11 "bbbb") 0 :=
  ⟨by decide, by decide⟩

/-- Claim C2 amended: for every history of at most MAX_CONVERSATION_TURNS
pairs whose total approximate token cost exceeds the budget,
truncate_history is idempotent.  (With more than MAX_CONVERSATION_TURNS
pairs the turn-count cap fires and short-circuits the token budget, and a
second application can truncate further.) -/
theorem claim_C2_amended (i r : List String) (m : Nat)
    (hlen : i.length = r.length) (hturns : i.length ≤ MAX_CONVERSATION_TURNS)
    (hcost : m < ((i ++ r).map estimate_tokens).sum) :
    truncate_history (truncate_history i r m).1 (truncate_history i r m).2 m =
      truncate_history i r m := by
  have hT : truncate_history i r m =
      dropOldest i r (((i ++ r).map estimate_tokens).sum) m := by
    unfold truncate_history
    rw [if_neg (not_lt.mpr hturns)]
    dsimp only
    rw [if_neg (not_le.mpr hcost)]
  have hsuf := dropOldest_suffix i r (((i ++ r).map estimate_tokens).sum) m
  have hspec := dropOldest_spec m i r (((i ++ r).map estimate_tokens).sum) rfl
  rcases hdrop : dropOldest i r (((i ++ r).map estimate_tokens).sum) m with ⟨T1, T2⟩
  rw [hdrop] at hT hsuf hspec
  dsimp only at hT hsuf hspec ⊢
  rw [hT]
  have hlen1 : T1.length ≤ MAX_CONVERSATION_TURNS := hsuf.1.length_le.trans hturns
  unfold truncate_history
  rw [if_neg (not_lt.mpr hlen1)]
  dsimp only
  by_cases h2 : ((T1 ++ T2).map estimate_tokens).sum ≤ m
  · rw [if_pos h2]
  · rw [if_neg h2]
    rcases hspec with hs | hs | hs
    · exact absurd hs h2
    · subst hs
      rw [dropOldest_nil_left]
    · subst hs
      rw [dropOldest_nil_right]

/-- Witness for the amended C2 on a concrete 4-pair history over budget. -/
theorem claim_C2_amended_witness :
    (List.replicate 4 "aaaaaaaa").length = (List.replicate 4 "bbbbbbbb").length ∧
    (List.replicate 4 "aaaaaaaa").length ≤ MAX_CONVERSATION_TURNS ∧
    3 < (((List.replicate 4 "aaaaaaaa" ++ List.replicate 4 "bbbbbbbb").map
        estimate_tokens).sum) ∧
    truncate_history
        (truncate_history (List.replicate 4 "aaaaaaaa") (List.replicate 4 "bbbbbbbb") 3).1
        (truncate_history (List.replicate 4 "aaaaaaaa") (List.replicate 4 "bbbbbbbb") 3).2 3 =
      truncate_history (List.replicate 4 "aaaaaaaa") (List.replicate 4 "bbbbbbbb") 3 :=
  ⟨by decide, by decide, by decide,
    claim_C2_amended (List.replicate 4 "aaaaaaaa") (List.replicate 4 "bbbbbbbb") 3
      (by decide) (by decide) (by decide)⟩

/-! ## Length lemmas for truncate_text and the salvage heuristic -/

theorem truncate_text_length_le (p : String) (n : Nat) :
    (truncate_text p n).length ≤ n := by
  unfold truncate_text
  split
  · next h => exact h
  · next h =>
    rw [String.length_mk]
    simp [List.length_take]

theorem truncate_text_of_le (p : String) (n : Nat) (h : p.length ≤ n) :
    truncate_text p n = p := by
  unfold truncate_text
  exact if_pos h

theorem truncate_text_idem (p : String) (n : Nat) :
    truncate_text (truncate_text p n) n = truncate_text p n :=
  truncate_text_of_le _ n (truncate_text_length_le p n)

theorem joinWords_length_cons (w : List Char) (ws : List (List Char)) :
    (joinWords (w :: ws)).length ≤ w.length + 1 + (joinWords ws).length := by
  cases ws with
  | nil => simp [joinWords]
  | cons v ws =>
    simp [joinWords]
    omega

theorem le_joinWords_cons (w : List Char) (ws : List (List Char)) :
    (joinWords ws).length ≤ (joinWords (w :: ws)).length := by
  cases ws with
  | nil => simp [joinWords]
  | cons v ws =>
    simp [joinWords]
    omega

theorem lt_joinWords_cons (w : List Char) (ws : List (List Char)) (h : ws ≠ []) :
    (joinWords ws).length < (joinWords (w :: ws)).length := by
  cases ws with
  | nil => exact absurd rfl h
  | cons v ws =>
    simp [joinWords]
    omega

theorem joinWords_drop_le (k : Nat) :
    ∀ ws : List (List Char), (joinWords (ws.drop k)).length ≤ (joinWords ws).length := by
  induction k with
  | zero => intro ws; simp
  | succ k ih =>
    intro ws
    cases ws with
    | nil => simp
    | cons w ws =>
      rw [List.drop_succ_cons]
      exact le_trans (ih ws) (le_joinWords_cons w ws)

theorem joinWords_drop_lt (k : Nat) (ws : List (List Char)) (hk : 0 < k)
    (hlt : k < ws.length) :
    (joinWords (ws.drop k)).length < (joinWords ws).length := by
  cases k with
  | zero => omega
  | succ k =>
    cases ws with
    | nil => simp at hlt
    | cons w ws =>
      rw [List.drop_succ_cons]
      have hne : ws ≠ [] := by
        cases ws
        · simp at hlt
        · simp
      exact lt_of_le_of_lt (joinWords_drop_le k ws) (lt_joinWords_cons w ws hne)

theorem pyWordsAux_join_le (cs : List Char) :
    ∀ acc : List Char, (joinWords (pyWordsAux cs acc)).length ≤ cs.length + acc.length := by
  induction cs with
  | nil =>
    intro acc
    by_cases hacc : acc = []
    · simp [pyWordsAux, hacc, joinWords]
    · simp [pyWordsAux, hacc, joinWords]
  | cons c cs ih =>
    intro acc
    rw [pyWordsAux]
    by_cases hws : isPyWs c = true
    · rw [if_pos hws]
      by_cases hacc : acc = []
      · rw [if_pos hacc]
        have h := ih []
        simp at h ⊢
        omega
      · rw [if_neg hacc]
        have h1 := joinWords_length_cons acc.reverse (pyWordsAux cs [])
        have h2 := ih []
        simp at h1 h2 ⊢
        omega
    · rw [if_neg hws]
      have h := ih (c :: acc)
      simp at h ⊢
      omega

theorem salvage_length_le (p : String) : (salvage p).length ≤ p.length := by
  have e : p.toList.length = p.length := rfl
  unfold salvage
  dsimp only
  split
  · next h =>
    rw [String.length_mk]
    have h1 := joinWords_drop_le ((pyWords p).length - 100) (pyWords p)
    have h2 := pyWordsAux_join_le p.toList []
    show (joinWords ((pyWords p).drop ((pyWords p).length - 100))).length ≤ p.length
    have h3 : (joinWords (pyWords p)).length ≤ p.toList.length + ([] : List Char).length :=
      h2
    simp at h3
    omega
  · exact le_refl _

theorem salvage_length_lt (p : String) (h : 100 < (pyWords p).length) :
    (salvage p).length < p.length := by
  have e : p.toList.length = p.length := rfl
  unfold salvage
  dsimp only
  rw [if_pos h, String.length_mk]
  have h1 : (joinWords ((pyWords p).drop ((pyWords p).length - 100))).length <
      (joinWords (pyWords p)).length :=
    joinWords_drop_lt _ _ (by omega) (by omega)
  have h2 : (joinWords (pyWords p)).length ≤ p.toList.length + ([] : List Char).length :=
    pyWordsAux_join_le p.toList []
  simp at h2
  omega

/-! ## Claim C1: exhausting all attempts on HTTP 429 -/

/-- Counterexample to claim C1 as stated: with 429 on all three attempts
the transport makes exactly 3 attempts with sleeps 2, 4, 8, but returns
the GENERIC exhaustion message of line 313 — the code has no
rate-limit-specific failure message, contrary to the claim. -/
theorem claim_C1_counterexample :
    (query (fun _ => NetOutcome.httpError 429) id [] 0 "hello").result = exhaustedMsg ∧
    (query (fun _ => NetOutcome.httpError 429) id [] 0 "hello").attempts.length = 3 ∧
    (query (fun _ => NetOutcome.httpError 429) id [] 0 "hello").sleeps = [2, 4, 8] :=
  ⟨by decide, by decide, by decide⟩

/-- Claim C1 amended: if every one of the 3 network attempts results in
HTTP 429, query returns the generic exhaustion message (the source has no
rate-limit-specific exhaustion message), makes exactly 3 network attempts,
and sleeps 2^attempt seconds after each attempt — 2, 4, 8, strictly
increasing (the third sleep occurs after the final attempt, just before
the loop exhausts). -/
theorem claim_C1_amended (net : Nat → NetOutcome) (hash : String → String)
    (store : List CacheRow) (now : Int) (p : String)
    (h1 : net 1 = .httpError 429) (h2 : net 2 = .httpError 429)
    (h3 : net 3 = .httpError 429)
    (hmiss : get_cached_response hash store (truncate_text p) now = none) :
    (query net hash store now p).result = exhaustedMsg ∧
    (query net hash store now p).attempts.length = 3 ∧
    (query net hash store now p).sleeps = [2, 4, 8] := by
  simp [query, queryLoop, h1, h2, h3, hmiss, MAX_RETRIES]

/-- Witness for the amended C1 at a concrete environment. -/
theorem claim_C1_witness :
    get_cached_response id [] (truncate_text "hi") 0 = none ∧
    ((query (fun _ => NetOutcome.httpError 429) id [] 0 "hi").result = exhaustedMsg ∧
     (query (fun _ => NetOutcome.httpError 429) id [] 0 "hi").attempts.length = 3 ∧
     (query (fun _ => NetOutcome.httpError 429) id [] 0 "hi").sleeps = [2, 4, 8]) :=
  ⟨rfl, claim_C1_amended (fun _ => NetOutcome.httpError 429) id [] 0 "hi"
    rfl rfl rfl rfl⟩

/-! ## Claim C9: the soft-failure fallback is cached -/

/-- Claim C9: when every attempt parses but yields text shorter than 2
characters, the fixed inadequate-response fallback itself is written to
the cache keyed by the outbound prompt, and an identical request within
the TTL returns that fallback from cache with no network attempt. -/
theorem claim_C9 (net net2 : Nat → NetOutcome) (hash : String → String)
    (now now2 : Int) (p : String) (b1 b2 b3 : JValue)
    (h1 : net 1 = .ok b1) (h2 : net 2 = .ok b2) (h3 : net 3 = .ok b3)
    (e1 : (extract_response b1).length < 2)
    (e2 : (extract_response b2).length < 2)
    (e3 : (extract_response b3).length < 2)
    (htime : now2 - now < CACHE_EXPIRY) :
    (query net hash [] now p).result = inadequateMsg ∧
    (query net hash [] now p).writes = [(truncate_text p, inadequateMsg)] ∧
    (query net2 hash (query net hash [] now p).store now2 p).result = inadequateMsg ∧
    (query net2 hash (query net hash [] now p).store now2 p).attempts = [] := by
  have hmiss : get_cached_response hash [] (truncate_text p) now = none := rfl
  have hrun : query net hash [] now p =
      ⟨inadequateMsg, [truncate_text p, truncate_text p, truncate_text p], [2, 4],
        [truncate_text p], [(truncate_text p, inadequateMsg)],
        [⟨hash (truncate_text p), inadequateMsg, now⟩]⟩ := by
    simp [query, queryLoop, h1, h2, h3, e1, e2, e3, hmiss, MAX_RETRIES, cache_response]
  have hhit : get_cached_response hash [⟨hash (truncate_text p), inadequateMsg, now⟩]
      (truncate_text p) now2 = some inadequateMsg := by
    simp [get_cached_response, List.find?_cons, htime]
  have hne : inadequateMsg ≠ "" := by decide
  refine ⟨by rw [hrun], by rw [hrun], ?_, ?_⟩
  · rw [hrun]
    simp [query, hhit, hne]
  · rw [hrun]
    simp [query, hhit, hne]

/-- Witness for C9: three empty generations, then a cache hit. -/
theorem claim_C9_witness :
    ((extract_response (.obj [("generated_text", JValue.str "")])).length < 2 ∧
     (10 : Int) - 0 < CACHE_EXPIRY) ∧
    ((query (fun _ => .ok (.obj [("generated_text", JValue.str "")])) id [] 0 "hey").result =
        inadequateMsg ∧
     (query (fun _ => .ok (.obj [("generated_text", JValue.str "")])) id [] 0 "hey").writes =
        [(truncate_text "hey", inadequateMsg)] ∧
     (query (fun _ => .connError) id
        (query (fun _ => .ok (.obj [("generated_text", JValue.str "")])) id [] 0 "hey").store
        10 "hey").result = inadequateMsg ∧
     (query (fun _ => .connError) id
        (query (fun _ => .ok (.obj [("generated_text", JValue.str "")])) id [] 0 "hey").store
        10 "hey").attempts = []) :=
  ⟨⟨by decide, by decide⟩,
    claim_C9 (fun _ => .ok (.obj [("generated_text", JValue.str "")])) (fun _ => .connError)
      id 0 10 "hey" _ _ _ rfl rfl rfl (by decide) (by decide) (by decide) (by decide)⟩

/-! ## Claim C3: the 400-salvage prompt is the one cached -/

/-- Claim C3: when attempt 1 returns HTTP 400 on a prompt of more than
100 words and attempt 2 returns HTTP 200 with valid text, query returns
the extracted text and the single cache write is keyed by the salvaged
prompt (the trailing 100 words actually sent on attempt 2), which differs
from the original pre-retry prompt. -/
theorem claim_C3 (net : Nat → NetOutcome) (hash : String → String) (now : Int)
    (p : String) (body : JValue)
    (hplen : p.length ≤ MAX_INPUT_LENGTH)
    (hwords : 100 < (pyWords p).length)
    (h1 : net 1 = .badRequest)
    (h2 : net 2 = .ok body)
    (hext : 2 ≤ (extract_response body).length) :
    (query net hash [] now p).result = extract_response body ∧
    (query net hash [] now p).attempts = [p, salvage p] ∧
    (query net hash [] now p).writes = [(salvage p, extract_response body)] ∧
    salvage p ≠ p := by
  have hp : truncate_text p = p := truncate_text_of_le p MAX_INPUT_LENGTH hplen
  have hmiss : get_cached_response hash [] p now = none := rfl
  have hnl : ¬ (extract_response body).length < 2 := not_lt.mpr hext
  have hlt := salvage_length_lt p hwords
  refine ⟨?_, ?_, ?_, ?_⟩
  · simp [query, queryLoop, hp, hmiss, h1, h2, hnl, MAX_RETRIES]
  · simp [query, queryLoop, hp, hmiss, h1, h2, hnl, MAX_RETRIES]
  · simp [query, queryLoop, hp, hmiss, h1, h2, hnl, MAX_RETRIES]
  · intro he
    rw [he] at hlt
    exact lt_irrefl _ hlt

/-- The concrete 101-word prompt used by the C3 witness. -/
def longPrompt : String :=
  "w w w w w w w w w w w w w w w w w w w w w w w w w w w w w w w w w w w w w w w w w w w w w w w w w w w w w w w w w w w w w w w w w w w w w w w w w w w w w w w w w w w w w w w w w w w w w w w w w w w w w"

set_option maxRecDepth 100000 in
/-- Witness for C3: a 400 on the 101-word prompt, then a 200 with text. -/
theorem claim_C3_witness :
    (longPrompt.length ≤ MAX_INPUT_LENGTH ∧
     100 < (pyWords longPrompt).length ∧
     2 ≤ (extract_response (.obj [("generated_text", JValue.str "Hello there")])).length) ∧
    ((query
        (fun n => if n = 1 then .badRequest
          else .ok (.obj [("generated_text", JValue.str "Hello there")]))
        id [] 0 longPrompt).result =
      extract_response (.obj [("generated_text", JValue.str "Hello there")]) ∧
     (query
        (fun n => if n = 1 then .badRequest
          else .ok (.obj [("generated_text", JValue.str "Hello there")]))
        id [] 0 longPrompt).attempts = [longPrompt, salvage longPrompt] ∧
     (query
        (fun n => if n = 1 then .badRequest
          else .ok (.obj [("generated_text", JValue.str "Hello there")]))
        id [] 0 longPrompt).writes =
      [(salvage longPrompt,
        extract_response (.obj [("generated_text", JValue.str "Hello there")]))] ∧
     salvage longPrompt ≠ longPrompt) :=
  ⟨⟨by decide, by decide, by decide⟩,
    claim_C3
      (fun n => if n = 1 then .badRequest
        else .ok (.obj [("generated_text", JValue.str "Hello there")]))
      id 0 longPrompt (.obj [("generated_text", JValue.str "Hello there")])
      (by decide) (by decide) rfl rfl (by decide)⟩

/-! ## Claim C10: prompts and fingerprint texts never exceed 512 chars -/

theorem queryLoop_bounds (net : Nat → NetOutcome) (hash : String → String)
    (store : List CacheRow) (now : Int) :
    ∀ (fuel attempt : Nat) (p : String), p.length ≤ MAX_INPUT_LENGTH →
      ((queryLoop net hash store now attempt fuel p).attempts.all
        (fun q => q.length ≤ MAX_INPUT_LENGTH)) = true ∧
      ((queryLoop net hash store now attempt fuel p).writes.all
        (fun w => w.1.length ≤ MAX_INPUT_LENGTH)) = true ∧
      (queryLoop net hash store now attempt fuel p).lookups = [] := by
  intro fuel
  induction fuel with
  | zero =>
    intro attempt p hp
    simp [queryLoop]
  | succ fuel ih =>
    intro attempt p hp
    rcases hnet : net attempt with body | _ | _ | status | _ | _ | msg
    · by_cases hshort : (extract_response body).length < 2
      · by_cases hatt : attempt < MAX_RETRIES
        · have h := ih (attempt + 1) p hp
          simp [queryLoop, hnet, hshort, hatt, hp, h.1, h.2.1, h.2.2]
        · simp [queryLoop, hnet, hshort, hatt, hp]
      · simp [queryLoop, hnet, hshort, hp]
    · by_cases hatt : attempt < MAX_RETRIES
      · have h := ih (attempt + 1) p hp
        simp [queryLoop, hnet, hatt, hp, h.1, h.2.1, h.2.2]
      · simp [queryLoop, hnet, hatt, hp]
    · by_cases hatt : attempt < MAX_RETRIES
      · have hp2 : (salvage p).length ≤ MAX_INPUT_LENGTH :=
          le_trans (salvage_length_le p) hp
        have h := ih (attempt + 1) (salvage p) hp2
        simp [queryLoop, hnet, hatt, hp, h.1, h.2.1, h.2.2]
      · simp [queryLoop, hnet, hatt, hp]
    · by_cases h429 : status = 429
      · have h := ih (attempt + 1) p hp
        simp [queryLoop, hnet, h429, hp, h.1, h.2.1, h.2.2]
      · by_cases h5xx : 500 ≤ status
        · by_cases hatt : attempt < MAX_RETRIES
          · have h := ih (attempt + 1) p hp
            simp [queryLoop, hnet, h429, h5xx, hatt, hp, h.1, h.2.1, h.2.2]
          · simp [queryLoop, hnet, h429, h5xx, hatt, hp]
        · simp [queryLoop, hnet, h429, h5xx, hp]
    · by_cases hatt : attempt < MAX_RETRIES
      · have h := ih (attempt + 1) p hp
        simp [queryLoop, hnet, hatt, hp, h.1, h.2.1, h.2.2]
      · simp [queryLoop, hnet, hatt, hp]
    · simp [queryLoop, hnet, hp]
    · simp [queryLoop, hnet, hp]

/-- Claim C10: the outbound prompt actually sent on every attempt and the
text used for cache fingerprinting (lookup and store) are always at most
MAX_INPUT_LENGTH characters, because query re-truncates the assembled
prompt before the cache lookup and the salvage heuristic never lengthens
it; consequently query on any prompt behaves exactly as query on its
first MAX_INPUT_LENGTH characters. -/
theorem claim_C10 (net : Nat → NetOutcome) (hash : String → String)
    (store : List CacheRow) (now : Int) (p : String) :
    ((query net hash store now p).attempts.all
      (fun q => q.length ≤ MAX_INPUT_LENGTH)) = true ∧
    ((query net hash store now p).lookups.all
      (fun q => q.length ≤ MAX_INPUT_LENGTH)) = true ∧
    ((query net hash store now p).writes.all
      (fun w => w.1.length ≤ MAX_INPUT_LENGTH)) = true ∧
    query net hash store now p = query net hash store now (truncate_text p) := by
  have hp : (truncate_text p).length ≤ MAX_INPUT_LENGTH :=
    truncate_text_length_le p MAX_INPUT_LENGTH
  have hb := queryLoop_bounds net hash store now MAX_RETRIES 1 (truncate_text p) hp
  have hidem : query net hash store now p = query net hash store now (truncate_text p) := by
    unfold query
    rw [truncate_text_idem]
  by_cases hc : (get_cached_response hash store (truncate_text p) now).getD "" ≠ ""
  · refine ⟨?_, ?_, ?_, hidem⟩ <;> simp [query, hc, hp]
  · refine ⟨?_, ?_, ?_, hidem⟩ <;>
      simp [query, hc, hp, hb.1, hb.2.1, hb.2.2]

end BotEnglish
